import Mathlib

/-
Verification of the video-processing pipeline (processors/videoProcessor.js,
served by index.js).  The externally-dependent effects of the pipeline (HTTP fetch,
the frame-extraction service, the vision/language model, JSON.parse, the
persistence store and push notifications) are modelled as oracle inputs in an
`Env`; everything the code of the repository itself computes is embedded as
executable Lean definitions.  Progress percentages are modelled exactly as
unreduced fractions (`Frac.mk a b` stands for the JS number a / b).
-/

namespace VideoProc

/-! ### Small executable string helpers (kernel-reducible stand-ins for the
JS string primitives used by the source: `endsWith`, `includes`, `trim`,
`join`, number-to-string coercion and lexicographic comparison). -/

def lexLe : List Char → List Char → Bool
  | [], _ => true
  | _ :: _, [] => false
  | x :: xs, y :: ys => if x = y then lexLe xs ys else decide (x < y)

def strEndsWith (s p : String) : Bool := p.data.reverse.isPrefixOf s.data.reverse

def hasSub (sub : List Char) : List Char → Bool
  | [] => sub.isPrefixOf []
  | c :: t => sub.isPrefixOf (c :: t) || hasSub sub t

/-- Model of the JS test `error.message.includes(429-string)` used by the
rate-limit classification of the orchestrator. -/
def includes429 (s : String) : Bool := hasSub "429".data s.data

def digitsAux : Nat → Nat → List Char
  | 0, _ => []
  | fuel+1, n => if n < 10 then [Nat.digitChar n] else digitsAux fuel (n / 10) ++ [Nat.digitChar (n % 10)]

def natToStr (n : Nat) : String := String.mk (digitsAux (n+1) n)

def intToStr : Int → String
  | Int.ofNat m => natToStr m
  | Int.negSucc m => "-" ++ natToStr (m+1)

def trimStr (s : String) : String :=
  String.mk (((s.data.dropWhile Char.isWhitespace).reverse.dropWhile Char.isWhitespace).reverse)

def joinSep (sep : String) : List String → String
  | [] => ""
  | [x] => x
  | x :: xs => x ++ sep ++ joinSep sep xs

def flookup {β : Type} (k : String) : List (String × β) → Option β
  | [] => none
  | (a, v) :: t => if a = k then some v else flookup k t

def lbrace : Char := Char.ofNat 123

def rbrace : Char := Char.ofNat 125

/-! ### JS values returned by JSON.parse -/

/-- A parsed JSON value (what JS JSON.parse can return).  `none : Option JsonVal`
is used elsewhere for the JS value `undefined`. -/
inductive JsonVal where
  | null
  | jbool (b : Bool)
  | jnum (n : Int)
  | jstr (s : String)
  | jarr (xs : List JsonVal)
  | jobj (fs : List (String × JsonVal))

/-- JS property access `v.k` (undefined on non-objects and missing keys). -/
def getField (v : JsonVal) (k : String) : Option JsonVal :=
  match v with
  | JsonVal.jobj fs => flookup k fs
  | _ => none

/-- JS truthiness of a value (`none` = undefined). -/
def truthy : Option JsonVal → Bool
  | none => false
  | some JsonVal.null => false
  | some (JsonVal.jbool b) => b
  | some (JsonVal.jnum n) => n != 0
  | some (JsonVal.jstr s) => s != ""
  | some (JsonVal.jarr _) => true
  | some (JsonVal.jobj _) => true

mutual
/-- JS string coercion of a JSON value (the cases the pipeline exercises are
strings; the container cases follow Array.prototype.toString / Object). -/
def jsToStr : JsonVal → String
  | JsonVal.null => "null"
  | JsonVal.jbool true => "true"
  | JsonVal.jbool false => "false"
  | JsonVal.jnum n => intToStr n
  | JsonVal.jstr s => s
  | JsonVal.jarr xs => joinSep "," (jsStrList xs)
  | JsonVal.jobj _ => "[object Object]"

def jsStrList : List JsonVal → List String
  | [] => []
  | v :: vs => jsToStr v :: jsStrList vs
end

/-- JS string coercion with undefined (string concatenation of `undefined`
prints the word). -/
def jsToString : Option JsonVal → String
  | none => "undefined"
  | some v => jsToStr v

def jsArrLen : Option JsonVal → Nat
  | some (JsonVal.jarr xs) => xs.length
  | _ => 0

/-! ### Errors thrown by the pipeline (messages verbatim from the source) -/

inductive PErr where
  | noFramesAny
  | noTextExtracted
  | ffmpegError (status : Nat) (body : String)
  | noFramesFound
  | downloadTimeout
  | downloadFailed (status : Nat)
  | openAIError (status : Nat) (msg : String)
  | parseFailed
  | invalidWorkout
  | jsonThrow (msg : String)
  | supabaseError (msg : String)
  | networkError (msg : String)
deriving DecidableEq

def PErr.message : PErr → String
  | PErr.noFramesAny => "No frames extracted from any video"
  | PErr.noTextExtracted => "No text extracted from video frames"
  | PErr.ffmpegError s b => "FFmpeg API error: " ++ natToStr s ++ " - " ++ b
  | PErr.noFramesFound => "No frames found in ZIP"
  | PErr.downloadTimeout => "Video download timeout"
  | PErr.downloadFailed s => "Failed to download video: " ++ natToStr s
  | PErr.openAIError s m => "OpenAI API error: " ++ natToStr s ++ " - " ++ m
  | PErr.parseFailed => "Failed to parse workout data from AI response"
  | PErr.invalidWorkout => "Invalid workout structure from AI"
  | PErr.jsonThrow m => m
  | PErr.supabaseError m => "Supabase error: " ++ m
  | PErr.networkError m => m

/-! ### Exact progress fractions -/

/-- An exact nonnegative fraction `num / den`; models the JS floating-point
progress expressions exactly (all comparisons the claims need are far from
float rounding error). -/
structure Frac where
  num : Nat
  den : Nat
deriving DecidableEq

/-- Comparison by cross multiplication. -/
def Frac.le (a b : Frac) : Bool := Nat.ble (a.num * b.den) (b.num * a.den)

def nondecr : List Frac → Bool
  | [] => true
  | [_] => true
  | a :: b :: t => Frac.le a b && nondecr (b :: t)

/-! ### Media Acquirer: downloadVideo -/

/-- Outcome of the single HTTP GET issued by downloadVideo: the abort
controller fired at the 30 s cap, the fetch rejected, or a response arrived. -/
inductive DlOutcome where
  | timeout
  | resp (ok : Bool) (status : Nat)
  | netErr (msg : String)
deriving DecidableEq

/-- Millisecond cap handed to setTimeout before the fetch. -/
def downloadTimeoutMs : Nat := 30000

def dlResult : DlOutcome → Except PErr Unit
  | DlOutcome.timeout => Except.error PErr.downloadTimeout
  | DlOutcome.netErr m => Except.error (PErr.networkError m)
  | DlOutcome.resp ok status =>
    if ok then Except.ok () else Except.error (PErr.downloadFailed status)

/-- downloadVideo: first component is the list of GET requests issued (always
exactly the one fetch of the video URL); on success the written temp-file
path is returned. -/
def downloadVideo (url : String) (o : DlOutcome) (tmp : String) :
    List String × Except PErr String :=
  ([url], (dlResult o).map (fun _ => tmp))

/-! ### Frame Extractor Client: extractFrames -/

/-- One entry of the ZIP archive returned by the extraction service: the entry
name and its content, already base64 encoded (the JSZip base64 accessor). -/
structure ZipEntry where
  name : String
  b64 : String
deriving DecidableEq

/-- Outcome of the multipart POST to the frame-extraction endpoint. -/
inductive ExtractOutcome where
  | netErr (msg : String)
  | httpErr (status : Nat) (body : String)
  | ok (entries : List ZipEntry)
deriving DecidableEq

def dataURI (b : String) : String := "data:image/png;base64," ++ b

/-- Name order used by `Object.keys(...).sort()` (lexicographic). -/
def entryLe (a b : ZipEntry) : Prop := lexLe a.name.data b.name.data = true

instance : DecidableRel entryLe := fun a b =>
  inferInstanceAs (Decidable (lexLe a.name.data b.name.data = true))

def sortByName (l : List ZipEntry) : List ZipEntry := List.insertionSort entryLe l

def pngEntries (entries : List ZipEntry) : List ZipEntry :=
  entries.filter (fun e => strEndsWith e.name ".png")

/-- The `for (let i = 0; i < files.length; i += 3)` sampling loop. -/
def every3 {α : Type} : List α → List α
  | [] => []
  | [x] => [x]
  | [x, _] => [x]
  | x :: _ :: _ :: rest => x :: every3 rest

def extractFrames (o : ExtractOutcome) : Except PErr (List String × Option String) :=
  match o with
  | ExtractOutcome.netErr m => Except.error (PErr.networkError m)
  | ExtractOutcome.httpErr s b => Except.error (PErr.ffmpegError s b)
  | ExtractOutcome.ok entries =>
    let files := sortByName (pngEntries entries)
    if files.isEmpty then Except.error PErr.noFramesFound
    else
      let firstFrame := files.head?.map (fun e => dataURI e.b64)
      let frames := (every3 files).map (fun e => dataURI e.b64)
      Except.ok (frames, firstFrame)

/-! ### Text-from-Frame Extractor: extractTextFromFrames -/

/-- The JSON body of one vision chat-completion request (the fields the
source sets besides the fixed role/type tags). -/
structure VisionRequest where
  model : String
  instruction : String
  imageUrl : String
  detail : String
  maxTokens : Nat
deriving DecidableEq

def visionRequest (frame : String) : VisionRequest :=
  ⟨"gpt-4o-mini",
   "Extract all visible text from this workout video frame. Include exercise names, rep counts, set counts, durations, and any other text visible on screen. Return only the extracted text, nothing else.",
   frame,
   "low",
   500⟩

/-- Outcome of one per-frame vision call: `ok c` is a 2xx response whose
optional choices/message/content path coerces to `c` (maybe empty); `httpErr` a non-2xx
response; `thrown` a rejected fetch / JSON body parse. -/
inductive VisionOutcome where
  | ok (content : String)
  | httpErr (status : Nat)
  | thrown (msg : String)
deriving DecidableEq

def visionText : VisionOutcome → Option String
  | VisionOutcome.ok c => if (trimStr c).length > 0 then some (trimStr c) else none
  | _ => none

/-! ### Events observable in a run -/

inductive Event where
  | progress (p : Frac)
  | visionCall (r : VisionRequest)
  | synthCall
  | dbUpdate (d : List (String × Option JsonVal))
  | notify (ok : Bool)

def progressList (tr : List Event) : List Frac :=
  tr.filterMap (fun e => match e with | Event.progress p => some p | _ => none)

def visionReqs (tr : List Event) : List VisionRequest :=
  tr.filterMap (fun e => match e with | Event.visionCall r => some r | _ => none)

def dbUpdates (tr : List Event) : List (List (String × Option JsonVal)) :=
  tr.filterMap (fun e => match e with | Event.dbUpdate d => some d | _ => none)

def synthCalls (tr : List Event) : Nat :=
  (tr.filterMap (fun e => match e with | Event.synthCall => some () | _ => none)).length

def notifyFails (tr : List Event) : Nat :=
  (tr.filterMap (fun e => match e with | Event.notify false => some () | _ => none)).length

/-- extractTextFromFrames: issues one vision request per frame (in order) and
joins the trimmed non-empty results with a blank line, skipping failures. -/
def extractTextRun (frames : List String) (resp : Nat → VisionOutcome) :
    List Event × String :=
  (frames.map (fun f => Event.visionCall (visionRequest f)),
   joinSep "\n\n" ((List.range frames.length).filterMap (fun i => visionText (resp i))))

/-! ### Workout Synthesizer: parseWorkoutWithAI -/

/-- Outcome of the synthesis chat-completion call; for a non-ok response
`errMsg` is the JS `errorData.error?.message || errorData.message ||
response.statusText`. -/
inductive SynthOutcome where
  | resp (ok : Bool) (status : Nat) (errMsg : String) (content : String)
  | netErr (msg : String)
deriving DecidableEq

/-- The regex scan `content.match(/\{[\s\S]*\}/)`: the span from the first
opening brace to the last closing brace, when the latter lies strictly after
the former. -/
def jsonSpan (s : String) : Option String :=
  let cs := s.data
  match cs.findIdx? (fun c => c = lbrace) with
  | none => none
  | some i =>
    match cs.reverse.findIdx? (fun c => c = rbrace) with
    | none => none
    | some r =>
      let j := cs.length - 1 - r
      if i < j then some (String.mk ((cs.take (j+1)).drop i)) else none

/-- The validation `!workoutData.exercises || !Array.isArray(workoutData.exercises)`
fails exactly unless the parsed value is an object whose `exercises` property
is an array (any array, including the empty one, is truthy). -/
def hasExercisesArr : JsonVal → Bool
  | JsonVal.jobj fs =>
    match flookup "exercises" fs with
    | some (JsonVal.jarr _) => true
    | _ => false
  | _ => false

def combinedPrompt (caption extractedText : String) : String :=
  caption ++ "\n\n=== EXTRACTED FROM VIDEO FRAMES ===\n" ++ extractedText

/-- parseWorkoutWithAI; `jparse` is the external JSON.parse (its SyntaxError
message on invalid JSON is `Except.error`). -/
def parseWorkoutWithAI (caption extractedText : String) (o : SynthOutcome)
    (jparse : String → Except String JsonVal) : Except PErr JsonVal :=
  let _prompt := combinedPrompt caption extractedText
  match o with
  | SynthOutcome.netErr m => Except.error (PErr.networkError m)
  | SynthOutcome.resp rok status errMsg content =>
    if rok then
      match jsonSpan content with
      | none => Except.error PErr.parseFailed
      | some span =>
        match jparse span with
        | Except.error m => Except.error (PErr.jsonThrow m)
        | Except.ok w =>
          if hasExercisesArr w then Except.ok w else Except.error PErr.invalidWorkout
    else Except.error (PErr.openAIError status errMsg)

/-! ### Result Sink: updateWorkout -/

/-- The `updates` object handed to updateWorkout (fields are JS values,
`none` = undefined / not supplied). -/
structure WUpdates where
  status : Option JsonVal
  exercises : Option JsonVal
  name : Option JsonVal
  duration : Option JsonVal
  difficulty : Option JsonVal
  notes : Option JsonVal
  displayUrl : Option JsonVal
  processingError : Option JsonVal

/-- One `if (updates.f) updateData.f = updates.f` line of updateWorkout: the
key is added only when the value is truthy. -/
def condBlock {β : Type} (c : Bool) (a : String) (v : β) : List (String × β) :=
  if c then [(a, v)] else []

/-- The `updateData` object built by updateWorkout: status is always a key;
every other field is added only when truthy. -/
def updateWorkoutData (u : WUpdates) : List (String × Option JsonVal) :=
  ("status", u.status)
  :: (condBlock (truthy u.exercises) "exercises" u.exercises
      ++ condBlock (truthy u.name) "name" u.name
      ++ condBlock (truthy u.duration) "duration" u.duration
      ++ condBlock (truthy u.difficulty) "difficulty" u.difficulty
      ++ condBlock (truthy u.notes) "notes" u.notes
      ++ condBlock (truthy u.displayUrl) "display_url" u.displayUrl
      ++ condBlock (truthy u.processingError) "processing_error" u.processingError)

def setField (row : List (String × JsonVal)) (k : String) (v : JsonVal) :
    List (String × JsonVal) :=
  match row with
  | [] => [(k, v)]
  | (a, w) :: t => if a = k then (k, v) :: t else (a, w) :: setField t k v

/-- Effect of the persistence update on a stored row: keys carrying a defined
value overwrite the stored field; an undefined value is dropped by JSON
serialization before reaching the store, leaving the field untouched. -/
def applyUpdateData (row : List (String × JsonVal)) (upd : List (String × Option JsonVal)) :
    List (String × JsonVal) :=
  upd.foldl (fun r kv =>
    match kv.2 with
    | some v => setField r kv.1 v
    | none => r) row

/-! ### Job Orchestrator: processVideoJob -/

/-- The `job.data` payload. -/
structure JobData where
  workoutId : String
  videoUrl : Option String
  videoUrls : Option (List String)
  videoFiles : Option (List String)
  userId : String
  caption : String
  source : String
  displayUrl : Option JsonVal
  openAIKey : String

/-- `hasFiles ? videoFiles : []` with `hasFiles = videoFiles && videoFiles.length > 0`. -/
def jobFiles (j : JobData) : List String :=
  match j.videoFiles with
  | some l => if l.length > 0 then l else []
  | none => []

/-- `hasUrls ? (videoUrls || [videoUrl]) : []` with `hasUrls = videoUrls || videoUrl`. -/
def jobUrls (j : JobData) : List String :=
  match j.videoUrls with
  | some l => l
  | none =>
    match j.videoUrl with
    | some u => if u != "" then [u] else []
    | none => []

/-- Truthiness of the JS thumbnail variable (null or a string). -/
def truthyOpt : Option String → Bool
  | some s => s != ""
  | none => false

/-- The external oracles a run consumes: `download i` / `extraction k` index
the i-th URL download and the k-th extractFrames call, `vision i` the i-th
per-frame call, `db n` the n-th updateWorkout call (some msg = Supabase
error), `jparse` is JSON.parse. -/
structure Env where
  download : Nat → DlOutcome
  extraction : Nat → ExtractOutcome
  vision : Nat → VisionOutcome
  synth : SynthOutcome
  jparse : String → Except String JsonVal
  db : Nat → Option String

/-- The uploaded-files loop: extract frames, report
`25 + (i+1)*25/totalVideos`, keep the first frame of the first video as thumbnail
candidate. -/
def filesLoop (env : Env) (total : Nat) :
    Nat → Nat → List String → Option String →
    List Event × Except PErr (List String × Option String)
  | 0, _, acc, th => ([], Except.ok (acc, th))
  | rem+1, i, acc, th =>
    match extractFrames (env.extraction i) with
    | Except.error e => ([], Except.error e)
    | Except.ok (frames, firstFrame) =>
      let ev := Event.progress (Frac.mk (25 * total + (i + 1) * 25) total)
      let th2 := if i == 0 && truthyOpt firstFrame then firstFrame else th
      let rest := filesLoop env total rem (i+1) (acc ++ frames) th2
      (ev :: rest.1, rest.2)

/-- The URL-videos loop: download (progress `10 + videoIndex*15/totalVideos`),
extract frames (progress `25 + videoIndex*25/totalVideos`), with
`videoIndex = files.length + i + 1`; the thumbnail candidate is taken from the
first URL video only when there were no uploaded files. -/
def urlsLoop (env : Env) (total F : Nat) :
    Nat → Nat → List String → Option String →
    List Event × Except PErr (List String × Option String)
  | 0, _, acc, th => ([], Except.ok (acc, th))
  | rem+1, i, acc, th =>
    match dlResult (env.download i) with
    | Except.error e => ([], Except.error e)
    | Except.ok _ =>
      let ev1 := Event.progress (Frac.mk (10 * total + (F + i + 1) * 15) total)
      match extractFrames (env.extraction (F + i)) with
      | Except.error e => ([ev1], Except.error e)
      | Except.ok (frames, firstFrame) =>
        let ev2 := Event.progress (Frac.mk (25 * total + (F + i + 1) * 25) total)
        let th2 := if F == 0 && i == 0 && truthyOpt firstFrame then firstFrame else th
        let rest := urlsLoop env total F rem (i+1) (acc ++ frames) th2
        (ev1 :: ev2 :: rest.1, rest.2)

/-- Both per-video loops: all uploaded files first, then all URL videos. -/
def runLoops (j : JobData) (env : Env) :
    List Event × Except PErr (List String × Option String) :=
  let files := jobFiles j
  let urls := jobUrls j
  let total := files.length + urls.length
  match filesLoop env total files.length 0 [] none with
  | (tr1, Except.error e) => (tr1, Except.error e)
  | (tr1, Except.ok (fr1, th1)) =>
    let r2 := urlsLoop env total files.length urls.length 0 fr1 th1
    (tr1 ++ r2.1, r2.2)

/-- The ternary selecting thumbnailFrame when source is TikTok and a
thumbnail is truthy, and displayUrl otherwise. -/
def displaySel (j : JobData) (thumb : Option String) : Option JsonVal :=
  if j.source == "TikTok" && truthyOpt thumb then thumb.map JsonVal.jstr else j.displayUrl

/-- The Step-5 persistence payload of a completed job. -/
def successUpdate (j : JobData) (thumb : Option String) (w : JsonVal) :
    List (String × Option JsonVal) :=
  updateWorkoutData
    ⟨some (JsonVal.jstr "completed"),
     getField w "exercises",
     getField w "name",
     getField w "duration",
     getField w "difficulty",
     some (JsonVal.jstr (jsToString (getField w "notes") ++ "\n\n[Enhanced with video frame analysis]")),
     displaySel j thumb,
     none⟩

/-- Terminal result of processVideoJob: the returned success object, the soft
soft rate-limit object return (success false, no auto retry), or a thrown
error. -/
inductive Outcome where
  | completed (workoutId : String) (nExercises : Nat)
  | softRateLimit
  | thrown (e : PErr)
deriving DecidableEq

/-- The body of the `try` block; the `Nat` counts updateWorkout calls made. -/
def tryBlock (j : JobData) (env : Env) : List Event × Nat × Except PErr Outcome :=
  match runLoops j env with
  | (tr, Except.error e) => (tr, 0, Except.error e)
  | (tr, Except.ok (allFrames, thumbnail)) =>
    if allFrames.isEmpty then (tr, 0, Except.error PErr.noFramesAny)
    else
      let v := extractTextRun allFrames env.vision
      let trA := tr ++ v.1 ++ [Event.progress (Frac.mk 75 1)]
      if v.2 = "" then (trA, 0, Except.error PErr.noTextExtracted)
      else
        match parseWorkoutWithAI j.caption v.2 env.synth env.jparse with
        | Except.error e => (trA ++ [Event.synthCall], 0, Except.error e)
        | Except.ok w =>
          let upd := successUpdate j thumbnail w
          let trB := trA ++ [Event.synthCall, Event.progress (Frac.mk 90 1), Event.dbUpdate upd]
          match env.db 0 with
          | some m => (trB, 1, Except.error (PErr.supabaseError m))
          | none =>
            (trB ++ [Event.progress (Frac.mk 100 1), Event.notify true], 1,
             Except.ok (Outcome.completed j.workoutId (jsArrLen (getField w "exercises"))))

def rlNote : String := "⏳ Hit API rate limit. Please wait 1-2 minutes and check back."

/-- The update persisted in the rate-limit catch branch. -/
def rateLimitUpd : List (String × Option JsonVal) :=
  updateWorkoutData
    ⟨some (JsonVal.jstr "processing"), none, none, none, none,
     some (JsonVal.jstr rlNote), none, none⟩

/-- The update persisted in the permanent-failure catch branch. -/
def permFailUpd (msg : String) : List (String × Option JsonVal) :=
  updateWorkoutData
    ⟨some (JsonVal.jstr "failed"), none, none, none, none, none, none,
     some (JsonVal.jstr msg)⟩

/-- processVideoJob: the try body plus the catch classification — an error
whose message includes the 429 marker persists status processing and returns
a soft non-error object (no notification); any other error persists status
failed with the message as processing_error, attempts a failure notification
and rethrows.  A Supabase failure inside the catch itself propagates instead. -/
def processVideoJob (j : JobData) (env : Env) : List Event × Outcome :=
  match tryBlock j env with
  | (tr, _, Except.ok out) => (Event.progress (Frac.mk 10 1) :: tr, out)
  | (tr, n, Except.error e) =>
    if includes429 e.message then
      match env.db n with
      | some m =>
        (Event.progress (Frac.mk 10 1) :: tr ++ [Event.dbUpdate rateLimitUpd],
         Outcome.thrown (PErr.supabaseError m))
      | none =>
        (Event.progress (Frac.mk 10 1) :: tr ++ [Event.dbUpdate rateLimitUpd],
         Outcome.softRateLimit)
    else
      match env.db n with
      | some m =>
        (Event.progress (Frac.mk 10 1) :: tr ++ [Event.dbUpdate (permFailUpd e.message)],
         Outcome.thrown (PErr.supabaseError m))
      | none =>
        (Event.progress (Frac.mk 10 1) :: tr ++ [Event.dbUpdate (permFailUpd e.message), Event.notify false],
         Outcome.thrown e)

def Event.isProg : Event → Bool
  | Event.progress _ => true
  | _ => false

/-! ### Concrete jobs and environments used by closed evaluations -/

/-- A JSON.parse oracle for the concrete runs below. -/
def jparse0 : String → Except String JsonVal := fun s =>
  if s = "\x7b\"exercises\":[]\x7d" then
    Except.ok (JsonVal.jobj [("exercises", JsonVal.jarr [])])
  else Except.error "Unexpected token o in JSON at position 1"

/-- A job with two URL videos. -/
def jobC2 : JobData :=
  ⟨"w1", none, some ["https://v.example/a.mp4", "https://v.example/b.mp4"], none,
   "user1", "cap", "Instagram", some (JsonVal.jstr "https://img.example/d.jpg"), "sk-key"⟩

/-- A fully healthy environment: downloads succeed, each archive holds one
png, every vision call returns text, synthesis returns a minimal workout. -/
def envC2 : Env :=
  ⟨fun _ => DlOutcome.resp true 200,
   fun _ => ExtractOutcome.ok [⟨"a.png", "A"⟩],
   fun _ => VisionOutcome.ok "SQUATS 3x10",
   SynthOutcome.resp true 200 "OK" "\x7b\"exercises\":[]\x7d",
   jparse0,
   fun _ => none⟩

/-- A single-URL job whose synthesis call is rate limited. -/
def jobC1 : JobData :=
  ⟨"wA", some "https://v.example/a.mp4", none, none, "user1", "cap", "Instagram",
   some (JsonVal.jstr "https://img.example/d.jpg"), "sk-key"⟩

def envC1 : Env :=
  ⟨fun _ => DlOutcome.resp true 200,
   fun _ => ExtractOutcome.ok [⟨"a.png", "A"⟩],
   fun _ => VisionOutcome.ok "SQUATS 3x10",
   SynthOutcome.resp false 429 "Too Many Requests" "",
   jparse0,
   fun _ => none⟩

/-- A completed non-TikTok upload job whose caller display URL is the empty
string. -/
def jobC3 : JobData :=
  ⟨"w3", none, none, some ["/tmp/uploads/f1"], "user1", "cap", "Instagram",
   some (JsonVal.jstr ""), "sk-key"⟩

def envC3 : Env :=
  ⟨fun _ => DlOutcome.resp true 200,
   fun _ => ExtractOutcome.ok [⟨"a.png", "A"⟩],
   fun _ => VisionOutcome.ok "BURPEES 4x12",
   SynthOutcome.resp true 200 "OK" "\x7b\"exercises\":[]\x7d",
   jparse0,
   fun _ => none⟩

/-- An upload job all of whose vision calls fail. -/
def jobC4 : JobData :=
  ⟨"w4", none, none, some ["/tmp/uploads/f1"], "user1", "cap", "Instagram",
   some (JsonVal.jstr "https://img.example/d.jpg"), "sk-key"⟩

def envC4 : Env :=
  ⟨fun _ => DlOutcome.resp true 200,
   fun _ => ExtractOutcome.ok [⟨"a.png", "A"⟩],
   fun _ => VisionOutcome.httpErr 500,
   SynthOutcome.resp true 200 "OK" "\x7b\"exercises\":[]\x7d",
   jparse0,
   fun _ => none⟩

/-- A single-URL job whose synthesis call fails with HTTP 429. -/
def jobC7 : JobData :=
  ⟨"w429", some "https://v.example/a.mp4", none, none, "user1", "leg day", "Instagram",
   some (JsonVal.jstr "https://img.example/d.jpg"), "sk-key"⟩

def envC7 : Env :=
  ⟨fun _ => DlOutcome.resp true 200,
   fun _ => ExtractOutcome.ok [⟨"a.png", "A"⟩],
   fun _ => VisionOutcome.ok "SQUATS 3x10",
   SynthOutcome.resp false 429 "Rate limit reached for gpt-4o-mini" "",
   jparse0,
   fun _ => none⟩

/-! ### Helper lemmas: substring containment -/

theorem isPrefixOf_append {l t u : List Char} (h : l.isPrefixOf t = true) :
    l.isPrefixOf (t ++ u) = true := by
  induction l generalizing t with
  | nil => cases t ++ u <;> rfl
  | cons a as ih =>
    cases t with
    | nil => simp [List.isPrefixOf] at h
    | cons b bs =>
      simp only [List.isPrefixOf, Bool.and_eq_true] at h
      simp only [List.cons_append, List.isPrefixOf, Bool.and_eq_true]
      exact ⟨h.1, ih h.2⟩

theorem hasSub_nil_sub (l : List Char) : hasSub [] l = true := by
  cases l with
  | nil => rfl
  | cons c t => simp [hasSub, List.isPrefixOf]

theorem hasSub_append_left {sub l1 : List Char} (l2 : List Char)
    (h : hasSub sub l1 = true) : hasSub sub (l1 ++ l2) = true := by
  induction l1 with
  | nil =>
    simp only [hasSub] at h
    have hs : sub = [] := by
      cases sub with
      | nil => rfl
      | cons a as => simp [List.isPrefixOf] at h
    rw [hs, List.nil_append]
    exact hasSub_nil_sub l2
  | cons c t ih =>
    simp only [hasSub, Bool.or_eq_true] at h
    rcases h with h | h
    · simp only [List.cons_append, hasSub, Bool.or_eq_true]
      exact Or.inl (isPrefixOf_append h)
    · simp only [List.cons_append, hasSub, Bool.or_eq_true]
      exact Or.inr (ih h)

theorem includes429_append_left (a b : String) (h : includes429 a = true) :
    includes429 (a ++ b) = true := by
  simp only [includes429] at h ⊢
  have hd : (a ++ b).data = a.data ++ b.data := rfl
  rw [hd]
  exact hasSub_append_left _ h

/-! ### Helper lemmas: association lists -/

theorem flookup_cons_ne {β : Type} (k a : String) (v : β) (t : List (String × β))
    (h : a ≠ k) : flookup k ((a, v) :: t) = flookup k t := by
  simp [flookup, h]

theorem flookup_setField_ne (k a : String) (v : JsonVal) (row : List (String × JsonVal))
    (h : a ≠ k) : flookup k (setField row a v) = flookup k row := by
  induction row with
  | nil => simp [setField, flookup, h]
  | cons p t ih =>
    cases p with
    | mk b w =>
      by_cases hb : b = a
      · subst hb
        simp [setField, flookup, h]
      · simp only [setField, if_neg hb]
        by_cases hbk : b = k
        · subst hbk
          simp [flookup]
        · rw [flookup_cons_ne _ _ _ _ hbk, flookup_cons_ne _ _ _ _ hbk]
          exact ih

theorem applyUpdate_lookup_absent (k : String) (row : List (String × JsonVal))
    (upd : List (String × Option JsonVal)) (h : ∀ kv ∈ upd, kv.1 ≠ k) :
    flookup k (applyUpdateData row upd) = flookup k row := by
  induction upd generalizing row with
  | nil => rfl
  | cons kv t ih =>
    cases kv with
    | mk a v =>
      have ha : a ≠ k := h (a, v) (List.mem_cons_self _ _)
      have ht : ∀ kv ∈ t, kv.1 ≠ k := fun kv hkv => h kv (List.mem_cons_of_mem _ hkv)
      cases v with
      | none => exact (ih row ht)
      | some x =>
        show flookup k (applyUpdateData (setField row a x) t) = flookup k row
        rw [ih _ ht, flookup_setField_ne _ _ _ _ ha]

theorem flookup_condBlock_ne {β : Type} (k a : String) (c : Bool) (v : β)
    (t : List (String × β)) (h : a ≠ k) :
    flookup k (condBlock c a v ++ t) = flookup k t := by
  cases c <;> simp [condBlock, flookup, h]

theorem flookup_condBlock_last {β : Type} (k a : String) (c : Bool) (v : β)
    (h : a ≠ k) : flookup k (condBlock c a v) = none := by
  cases c <;> simp [condBlock, flookup, h]

theorem flookup_condBlock_eq {β : Type} (k : String) (c : Bool) (v : β)
    (t : List (String × β)) :
    flookup k (condBlock c k v ++ t) = (if c then some v else flookup k t) := by
  cases c <;> simp [condBlock, flookup]

theorem flookup_condBlock_eq_last {β : Type} (k : String) (c : Bool) (v : β) :
    flookup k (condBlock c k v) = (if c then some v else none) := by
  cases c <;> simp [condBlock, flookup]

theorem updLookup_status (u : WUpdates) :
    flookup "status" (updateWorkoutData u) = some u.status := by
  simp [updateWorkoutData, flookup]

theorem updLookup_exercises (u : WUpdates) :
    flookup "exercises" (updateWorkoutData u)
      = (if truthy u.exercises then some u.exercises else none) := by
  unfold updateWorkoutData
  rw [flookup_cons_ne "exercises" "status" _ _ (by decide)]
  simp only [List.append_assoc]
  rw [flookup_condBlock_eq]
  cases truthy u.exercises
  · simp only [if_neg Bool.false_ne_true]
    rw [flookup_condBlock_ne "exercises" "name" _ _ _ (by decide),
      flookup_condBlock_ne "exercises" "duration" _ _ _ (by decide),
      flookup_condBlock_ne "exercises" "difficulty" _ _ _ (by decide),
      flookup_condBlock_ne "exercises" "notes" _ _ _ (by decide),
      flookup_condBlock_ne "exercises" "display_url" _ _ _ (by decide),
      flookup_condBlock_last "exercises" "processing_error" _ _ (by decide)]
  · rfl

theorem updLookup_name (u : WUpdates) :
    flookup "name" (updateWorkoutData u)
      = (if truthy u.name then some u.name else none) := by
  unfold updateWorkoutData
  rw [flookup_cons_ne "name" "status" _ _ (by decide)]
  simp only [List.append_assoc]
  rw [flookup_condBlock_ne "name" "exercises" _ _ _ (by decide), flookup_condBlock_eq]
  cases truthy u.name
  · simp only [if_neg Bool.false_ne_true]
    rw [flookup_condBlock_ne "name" "duration" _ _ _ (by decide),
      flookup_condBlock_ne "name" "difficulty" _ _ _ (by decide),
      flookup_condBlock_ne "name" "notes" _ _ _ (by decide),
      flookup_condBlock_ne "name" "display_url" _ _ _ (by decide),
      flookup_condBlock_last "name" "processing_error" _ _ (by decide)]
  · rfl

theorem updLookup_duration (u : WUpdates) :
    flookup "duration" (updateWorkoutData u)
      = (if truthy u.duration then some u.duration else none) := by
  unfold updateWorkoutData
  rw [flookup_cons_ne "duration" "status" _ _ (by decide)]
  simp only [List.append_assoc]
  rw [flookup_condBlock_ne "duration" "exercises" _ _ _ (by decide),
    flookup_condBlock_ne "duration" "name" _ _ _ (by decide), flookup_condBlock_eq]
  cases truthy u.duration
  · simp only [if_neg Bool.false_ne_true]
    rw [flookup_condBlock_ne "duration" "difficulty" _ _ _ (by decide),
      flookup_condBlock_ne "duration" "notes" _ _ _ (by decide),
      flookup_condBlock_ne "duration" "display_url" _ _ _ (by decide),
      flookup_condBlock_last "duration" "processing_error" _ _ (by decide)]
  · rfl

theorem updLookup_difficulty (u : WUpdates) :
    flookup "difficulty" (updateWorkoutData u)
      = (if truthy u.difficulty then some u.difficulty else none) := by
  unfold updateWorkoutData
  rw [flookup_cons_ne "difficulty" "status" _ _ (by decide)]
  simp only [List.append_assoc]
  rw [flookup_condBlock_ne "difficulty" "exercises" _ _ _ (by decide),
    flookup_condBlock_ne "difficulty" "name" _ _ _ (by decide),
    flookup_condBlock_ne "difficulty" "duration" _ _ _ (by decide), flookup_condBlock_eq]
  cases truthy u.difficulty
  · simp only [if_neg Bool.false_ne_true]
    rw [flookup_condBlock_ne "difficulty" "notes" _ _ _ (by decide),
      flookup_condBlock_ne "difficulty" "display_url" _ _ _ (by decide),
      flookup_condBlock_last "difficulty" "processing_error" _ _ (by decide)]
  · rfl

theorem updLookup_notes (u : WUpdates) :
    flookup "notes" (updateWorkoutData u)
      = (if truthy u.notes then some u.notes else none) := by
  unfold updateWorkoutData
  rw [flookup_cons_ne "notes" "status" _ _ (by decide)]
  simp only [List.append_assoc]
  rw [flookup_condBlock_ne "notes" "exercises" _ _ _ (by decide),
    flookup_condBlock_ne "notes" "name" _ _ _ (by decide),
    flookup_condBlock_ne "notes" "duration" _ _ _ (by decide),
    flookup_condBlock_ne "notes" "difficulty" _ _ _ (by decide), flookup_condBlock_eq]
  cases truthy u.notes
  · simp only [if_neg Bool.false_ne_true]
    rw [flookup_condBlock_ne "notes" "display_url" _ _ _ (by decide),
      flookup_condBlock_last "notes" "processing_error" _ _ (by decide)]
  · rfl

theorem updLookup_display (u : WUpdates) :
    flookup "display_url" (updateWorkoutData u)
      = (if truthy u.displayUrl then some u.displayUrl else none) := by
  unfold updateWorkoutData
  rw [flookup_cons_ne "display_url" "status" _ _ (by decide)]
  simp only [List.append_assoc]
  rw [flookup_condBlock_ne "display_url" "exercises" _ _ _ (by decide),
    flookup_condBlock_ne "display_url" "name" _ _ _ (by decide),
    flookup_condBlock_ne "display_url" "duration" _ _ _ (by decide),
    flookup_condBlock_ne "display_url" "difficulty" _ _ _ (by decide),
    flookup_condBlock_ne "display_url" "notes" _ _ _ (by decide), flookup_condBlock_eq]
  cases truthy u.displayUrl
  · simp only [if_neg Bool.false_ne_true]
    rw [flookup_condBlock_last "display_url" "processing_error" _ _ (by decide)]
  · rfl

theorem updLookup_procError (u : WUpdates) :
    flookup "processing_error" (updateWorkoutData u)
      = (if truthy u.processingError then some u.processingError else none) := by
  unfold updateWorkoutData
  rw [flookup_cons_ne "processing_error" "status" _ _ (by decide)]
  simp only [List.append_assoc]
  rw [flookup_condBlock_ne "processing_error" "exercises" _ _ _ (by decide),
    flookup_condBlock_ne "processing_error" "name" _ _ _ (by decide),
    flookup_condBlock_ne "processing_error" "duration" _ _ _ (by decide),
    flookup_condBlock_ne "processing_error" "difficulty" _ _ _ (by decide),
    flookup_condBlock_ne "processing_error" "notes" _ _ _ (by decide),
    flookup_condBlock_ne "processing_error" "display_url" _ _ _ (by decide),
    flookup_condBlock_eq_last]

theorem mem_condBlock {β : Type} (kv : String × β) (c : Bool) (a : String) (v : β)
    (h : kv ∈ condBlock c a v) : kv = (a, v) := by
  cases c
  · simp [condBlock] at h
  · simpa [condBlock] using h

/-- When the displayUrl field is not truthy the updateData object carries no
display_url key at all. -/
theorem updNoDisplay (u : WUpdates) (h : truthy u.displayUrl = false) :
    ∀ kv ∈ updateWorkoutData u, kv.1 ≠ "display_url" := by
  intro kv hkv
  unfold updateWorkoutData at hkv
  rw [h] at hkv
  simp only [List.mem_cons, List.mem_append] at hkv
  rcases hkv with h0 | ((((((h1 | h2) | h3) | h4) | h5) | h6) | h7)
  · rw [h0]; intro hc; simp at hc
  · rw [mem_condBlock _ _ _ _ h1]; intro hc; simp at hc
  · rw [mem_condBlock _ _ _ _ h2]; intro hc; simp at hc
  · rw [mem_condBlock _ _ _ _ h3]; intro hc; simp at hc
  · rw [mem_condBlock _ _ _ _ h4]; intro hc; simp at hc
  · rw [mem_condBlock _ _ _ _ h5]; intro hc; simp at hc
  · simp [condBlock] at h6
  · rw [mem_condBlock _ _ _ _ h7]; intro hc; simp at hc

/-! ### Helper lemmas: the sampling loop -/

theorem every3_cons {α : Type} (x : α) (xs : List α) :
    ∃ t, every3 (x :: xs) = x :: t := by
  match xs with
  | [] => exact ⟨[], rfl⟩
  | [y] => exact ⟨[], rfl⟩
  | y :: z :: r => exact ⟨every3 r, rfl⟩

theorem every3_get? {α : Type} : ∀ (l : List α) (k : Nat),
    (every3 l).get? k = l.get? (3 * k)
  | [], k => by simp [every3]
  | [x], 0 => rfl
  | [x], (k+1) => by
    rw [List.get?_eq_none.mpr, List.get?_eq_none.mpr] <;> simp [every3] <;> omega
  | [x, y], 0 => rfl
  | [x, y], (k+1) => by
    rw [List.get?_eq_none.mpr, List.get?_eq_none.mpr] <;> simp [every3] <;> omega
  | x :: y :: z :: r, 0 => rfl
  | x :: y :: z :: r, (k+1) => by
    have h3 : 3 * (k + 1) = 3 * k + 1 + 1 + 1 := by omega
    rw [h3]
    show (every3 r).get? k = r.get? (3 * k)
    exact every3_get? r k

/-! ### Helper lemmas: name ordering -/

theorem lexLe_total (a : List Char) : ∀ b, lexLe a b = true ∨ lexLe b a = true := by
  induction a with
  | nil => intro b; exact Or.inl rfl
  | cons x xs ih =>
    intro b
    cases b with
    | nil => exact Or.inr rfl
    | cons y ys =>
      by_cases hxy : x = y
      · subst hxy
        rcases ih ys with h | h
        · exact Or.inl (by simp [lexLe, h])
        · exact Or.inr (by simp [lexLe, h])
      · rcases lt_trichotomy x y with h | h | h
        · exact Or.inl (by simp [lexLe, hxy, h])
        · exact absurd h hxy
        · exact Or.inr (by simp [lexLe, Ne.symm hxy, h])

theorem lexLe_trans (a : List Char) : ∀ b c, lexLe a b = true → lexLe b c = true →
    lexLe a c = true := by
  induction a with
  | nil => intro b c _ _; rfl
  | cons x xs ih =>
    intro b c hab hbc
    cases b with
    | nil => simp [lexLe] at hab
    | cons y ys =>
      cases c with
      | nil => simp [lexLe] at hbc
      | cons z zs =>
        by_cases hxy : x = y <;> by_cases hyz : y = z
        · subst hxy; subst hyz
          simp only [lexLe, if_pos rfl] at hab hbc ⊢
          exact ih ys zs hab hbc
        · subst hxy
          simp only [lexLe, if_pos rfl, if_neg hyz] at hbc ⊢
          exact hbc
        · subst hyz
          simp only [lexLe, if_neg hxy] at hab ⊢
          exact hab
        · simp only [lexLe, if_neg hxy, if_neg hyz, decide_eq_true_eq] at hab hbc
          have hxz : x < z := lt_trans hab hbc
          simp [lexLe, ne_of_lt hxz, hxz]

instance : IsTotal ZipEntry entryLe :=
  ⟨fun a b => lexLe_total a.name.data b.name.data⟩

instance : IsTrans ZipEntry entryLe :=
  ⟨fun a b c => lexLe_trans a.name.data b.name.data c.name.data⟩

/-! ### Helper lemmas: traces -/

theorem filterMap_nil_of_all_prog {β : Type} (f : Event → Option β)
    (hf : ∀ p, f (Event.progress p) = none) :
    ∀ tr : List Event, tr.all Event.isProg = true → tr.filterMap f = [] := by
  intro tr
  induction tr with
  | nil => intro _; rfl
  | cons e t ih =>
    intro h
    rw [List.all_cons, Bool.and_eq_true] at h
    cases e with
    | progress p => rw [List.filterMap_cons, hf p]; exact ih h.2
    | visionCall r => simp [Event.isProg] at h
    | synthCall => simp [Event.isProg] at h
    | dbUpdate d => simp [Event.isProg] at h
    | notify b => simp [Event.isProg] at h

theorem synthCalls_append (a b : List Event) :
    synthCalls (a ++ b) = synthCalls a + synthCalls b := by
  simp [synthCalls, List.filterMap_append]

theorem notifyFails_append (a b : List Event) :
    notifyFails (a ++ b) = notifyFails a + notifyFails b := by
  simp [notifyFails, List.filterMap_append]

theorem dbUpdates_append (a b : List Event) :
    dbUpdates (a ++ b) = dbUpdates a ++ dbUpdates b := by
  simp [dbUpdates, List.filterMap_append]

theorem visionReqs_append (a b : List Event) :
    visionReqs (a ++ b) = visionReqs a ++ visionReqs b := by
  simp [visionReqs, List.filterMap_append]

theorem progressList_append (a b : List Event) :
    progressList (a ++ b) = progressList a ++ progressList b := by
  simp [progressList, List.filterMap_append]

/-- The uploaded-files loop emits only progress events. -/
theorem filesLoop_all_prog (env : Env) (total : Nat) :
    ∀ (rem i : Nat) (acc : List String) (th : Option String),
      ((filesLoop env total rem i acc th).1).all Event.isProg = true := by
  intro rem
  induction rem with
  | zero => intro i acc th; rfl
  | succ n ih =>
    intro i acc th
    unfold filesLoop
    cases extractFrames (env.extraction i) with
    | error e => rfl
    | ok p =>
      cases p with
      | mk frames firstFrame =>
        simp only [List.all_cons, Bool.and_eq_true]
        exact ⟨rfl, ih (i+1) _ _⟩

/-- The URL-videos loop emits only progress events. -/
theorem urlsLoop_all_prog (env : Env) (total F : Nat) :
    ∀ (rem i : Nat) (acc : List String) (th : Option String),
      ((urlsLoop env total F rem i acc th).1).all Event.isProg = true := by
  intro rem
  induction rem with
  | zero => intro i acc th; rfl
  | succ n ih =>
    intro i acc th
    unfold urlsLoop
    cases dlResult (env.download i) with
    | error e => rfl
    | ok u =>
      cases extractFrames (env.extraction (F + i)) with
      | error e => rfl
      | ok p =>
        cases p with
        | mk frames firstFrame =>
          rw [List.all_cons, List.all_cons]
          simp only [Bool.and_eq_true]
          exact ⟨rfl, rfl, ih (i+1) _ _⟩

/-- The per-video loops emit only progress events. -/
theorem runLoops_all_prog (j : JobData) (env : Env) :
    ((runLoops j env).1).all Event.isProg = true := by
  unfold runLoops
  cases hf : filesLoop env (List.length (jobFiles j) + List.length (jobUrls j))
      (List.length (jobFiles j)) 0 [] none with
  | mk tr1 r1 =>
    have h1 : tr1.all Event.isProg = true := by
      have := filesLoop_all_prog env (List.length (jobFiles j) + List.length (jobUrls j))
        (List.length (jobFiles j)) 0 [] none
      rw [hf] at this
      exact this
    cases r1 with
    | error e => simpa [hf] using h1
    | ok p =>
      cases p with
      | mk fr1 th1 =>
        simp only [hf, List.all_append, Bool.and_eq_true]
        exact ⟨h1, urlsLoop_all_prog env _ _ _ _ _ _⟩

theorem extractTextRun_events (frames : List String) (resp : Nat → VisionOutcome) :
    (extractTextRun frames resp).1 = frames.map (fun f => Event.visionCall (visionRequest f)) :=
  rfl

theorem filterMap_nil_of_vision_events {β : Type} (f : Event → Option β)
    (hf : ∀ r, f (Event.visionCall r) = none) (frames : List String) :
    (frames.map (fun fr => Event.visionCall (visionRequest fr))).filterMap f = [] := by
  induction frames with
  | nil => rfl
  | cons fr t ih => rw [List.map_cons, List.filterMap_cons, hf]; exact ih

theorem visionReqs_of_vision_events (frames : List String) :
    visionReqs (frames.map (fun fr => Event.visionCall (visionRequest fr)))
      = frames.map visionRequest := by
  induction frames with
  | nil => rfl
  | cons fr t ih =>
    simp only [List.map_cons, visionReqs, List.filterMap_cons] at ih ⊢
    rw [ih]

/-- All text fragments skipped means the combined text is empty. -/
theorem extractTextRun_empty (frames : List String) (resp : Nat → VisionOutcome)
    (h : ∀ i, i < frames.length → visionText (resp i) = none) :
    (extractTextRun frames resp).2 = "" := by
  show joinSep "\n\n" ((List.range frames.length).filterMap (fun i => visionText (resp i))) = ""
  have : (List.range frames.length).filterMap (fun i => visionText (resp i)) = [] := by
    apply List.filterMap_eq_nil.mpr
    intro i hi
    exact h i (List.mem_range.mp hi)
  rw [this]
  rfl

/-! ### Helper lemmas: the catch block -/

/-- The try body never attempts a failure notification. -/
theorem tryBlock_notifyFails (j : JobData) (env : Env) :
    notifyFails (tryBlock j env).1 = 0 := by
  cases hr : runLoops j env with
  | mk tr r =>
    have htr : tr.all Event.isProg = true := by
      have h0 := runLoops_all_prog j env
      rw [hr] at h0
      exact h0
    have hrl : notifyFails tr = 0 := by
      unfold notifyFails
      rw [filterMap_nil_of_all_prog _ (fun _ => rfl) tr htr]
      rfl
    cases r with
    | error e =>
      simp only [tryBlock, hr]
      exact hrl
    | ok p =>
      cases p with
      | mk allFrames thumbnail =>
        have hv : notifyFails (extractTextRun allFrames env.vision).1 = 0 := by
          unfold notifyFails
          rw [extractTextRun_events, filterMap_nil_of_vision_events _ (fun _ => rfl)]
          rfl
        by_cases he : allFrames.isEmpty = true
        · simp only [tryBlock, hr, he, if_true]
          exact hrl
        · by_cases ht : (extractTextRun allFrames env.vision).2 = ""
          · simp only [tryBlock, hr, if_neg he, ht, if_true]
            rw [notifyFails_append, notifyFails_append, hrl, hv]
            rfl
          · cases hp : parseWorkoutWithAI j.caption (extractTextRun allFrames env.vision).2
                env.synth env.jparse with
            | error e =>
              simp only [tryBlock, hr, if_neg he, if_neg ht, hp]
              rw [notifyFails_append, notifyFails_append, notifyFails_append, hrl, hv]
              rfl
            | ok w =>
              cases hd : env.db 0 with
              | some m =>
                simp only [tryBlock, hr, if_neg he, if_neg ht, hp, hd]
                rw [notifyFails_append, notifyFails_append, notifyFails_append, hrl, hv]
                rfl
              | none =>
                simp only [tryBlock, hr, if_neg he, if_neg ht, hp, hd]
                rw [notifyFails_append, notifyFails_append, notifyFails_append,
                  notifyFails_append, hrl, hv]
                rfl

/-- Catch behavior on a rate-limit-classified error with a healthy store. -/
theorem run_catch_429 (j : JobData) (env : Env) (tr : List Event) (n : Nat) (e : PErr)
    (h : tryBlock j env = (tr, n, Except.error e))
    (h429 : includes429 e.message = true) (hdb : env.db n = none) :
    processVideoJob j env =
      (Event.progress (Frac.mk 10 1) :: tr ++ [Event.dbUpdate rateLimitUpd],
       Outcome.softRateLimit) := by
  unfold processVideoJob
  rw [h]
  simp [h429, hdb]

/-- Catch behavior on a permanently-classified error with a healthy store. -/
theorem run_catch_perm (j : JobData) (env : Env) (tr : List Event) (n : Nat) (e : PErr)
    (h : tryBlock j env = (tr, n, Except.error e))
    (h429 : includes429 e.message = false) (hdb : env.db n = none) :
    processVideoJob j env =
      (Event.progress (Frac.mk 10 1) :: tr
         ++ [Event.dbUpdate (permFailUpd e.message), Event.notify false],
       Outcome.thrown e) := by
  unfold processVideoJob
  rw [h]
  simp [h429, hdb]

/-- Success propagates the try result. -/
theorem run_success (j : JobData) (env : Env) (tr : List Event) (n : Nat) (out : Outcome)
    (h : tryBlock j env = (tr, n, Except.ok out)) :
    processVideoJob j env = (Event.progress (Frac.mk 10 1) :: tr, out) := by
  unfold processVideoJob
  rw [h]

theorem dbUpdates_cons_prog (p : Frac) (l : List Event) :
    dbUpdates (Event.progress p :: l) = dbUpdates l := rfl

theorem notifyFails_cons_prog (p : Frac) (l : List Event) :
    notifyFails (Event.progress p :: l) = notifyFails l := rfl

theorem synthCalls_cons_prog (p : Frac) (l : List Event) :
    synthCalls (Event.progress p :: l) = synthCalls l := rfl

/-- An empty combined text aborts the try body with NoTextExtracted before
the synthesis stage. -/
theorem tryBlock_noText (j : JobData) (env : Env) (tr : List Event) (fr : List String)
    (th : Option String) (h : runLoops j env = (tr, Except.ok (fr, th))) (hfr : fr ≠ [])
    (ht : (extractTextRun fr env.vision).2 = "") :
    tryBlock j env =
      (tr ++ (extractTextRun fr env.vision).1 ++ [Event.progress (Frac.mk 75 1)], 0,
       Except.error PErr.noTextExtracted) := by
  have hne : ¬(fr.isEmpty = true) := by
    rw [List.isEmpty_iff]
    exact hfr
  simp only [tryBlock, h, if_neg hne, ht, if_pos rfl]
  rw [if_pos trivial]

/-! ### Claim theorems -/

/-- C1: for every job whose try body raises an error whose message contains
the rate-limit marker 429 (and whose catch-side store write succeeds), the
orchestrator persists status processing on the workout record, attempts no
failure notification, and returns the soft non-error outcome; for every
error whose (non-empty) message lacks the marker it persists status failed
together with the error message as processing_error and rethrows the error. -/
theorem c1_failure_classification (j : JobData) (env : Env) (tr : List Event) (n : Nat)
    (e : PErr) (h : tryBlock j env = (tr, n, Except.error e)) (hdb : env.db n = none)
    (hmsg : e.message ≠ "") :
    (includes429 e.message = true →
      (processVideoJob j env).2 = Outcome.softRateLimit
      ∧ (dbUpdates (processVideoJob j env).1).getLast? = some rateLimitUpd
      ∧ flookup "status" rateLimitUpd = some (some (JsonVal.jstr "processing"))
      ∧ notifyFails (processVideoJob j env).1 = 0)
    ∧ (includes429 e.message = false →
      (processVideoJob j env).2 = Outcome.thrown e
      ∧ (dbUpdates (processVideoJob j env).1).getLast? = some (permFailUpd e.message)
      ∧ flookup "status" (permFailUpd e.message) = some (some (JsonVal.jstr "failed"))
      ∧ flookup "processing_error" (permFailUpd e.message)
          = some (some (JsonVal.jstr e.message))) := by
  have hnf : notifyFails tr = 0 := by
    have h0 := tryBlock_notifyFails j env
    rw [h] at h0
    exact h0
  constructor
  · intro h429
    have hrun := run_catch_429 j env tr n e h h429 hdb
    rw [hrun]
    refine ⟨rfl, ?_, rfl, ?_⟩
    · show (dbUpdates ((Event.progress (Frac.mk 10 1) :: tr)
          ++ [Event.dbUpdate rateLimitUpd])).getLast? = some rateLimitUpd
      rw [dbUpdates_append]
      show (dbUpdates (Event.progress (Frac.mk 10 1) :: tr) ++ [rateLimitUpd]).getLast?
          = some rateLimitUpd
      exact List.getLast?_concat _
    · show notifyFails ((Event.progress (Frac.mk 10 1) :: tr)
          ++ [Event.dbUpdate rateLimitUpd]) = 0
      rw [notifyFails_append, notifyFails_cons_prog, hnf]
      rfl
  · intro h429
    have hrun := run_catch_perm j env tr n e h h429 hdb
    rw [hrun]
    have htru : truthy (some (JsonVal.jstr e.message)) = true := by
      simp [truthy, hmsg]
    refine ⟨rfl, ?_, updLookup_status _, ?_⟩
    · show (dbUpdates ((Event.progress (Frac.mk 10 1) :: tr)
          ++ [Event.dbUpdate (permFailUpd e.message), Event.notify false])).getLast?
          = some (permFailUpd e.message)
      rw [dbUpdates_append]
      show (dbUpdates (Event.progress (Frac.mk 10 1) :: tr)
          ++ [permFailUpd e.message]).getLast? = some (permFailUpd e.message)
      exact List.getLast?_concat _
    · show flookup "processing_error" (updateWorkoutData
          ⟨some (JsonVal.jstr "failed"), none, none, none, none, none, none,
           some (JsonVal.jstr e.message)⟩) = some (some (JsonVal.jstr e.message))
      rw [updLookup_procError, if_pos htru]

theorem c1_failure_classification_witness :
    (processVideoJob jobC1 envC1).2 = Outcome.softRateLimit
    ∧ notifyFails (processVideoJob jobC1 envC1).1 = 0 := by
  have h := (c1_failure_classification jobC1 envC1 (tryBlock jobC1 envC1).1
      (tryBlock jobC1 envC1).2.1 (PErr.openAIError 429 "Too Many Requests") rfl rfl
      (by decide)).1 (by decide)
  exact ⟨h.1, h.2.2.2⟩

/-- C2 (code_bug evidence): a job with two URL videos that completes reports
the exact progress sequence 10, 35/2 (17.5), 75/2 (37.5), 50/2 (25),
100/2 (50), 75, 90, 100 — the download report of the second video falls
below the extraction report of the first, so the reported sequence is not
monotonically non-decreasing even though it ends at the 75/90/100
high-water marks. -/
theorem c2_progress_not_monotone :
    progressList (processVideoJob jobC2 envC2).1 =
      [Frac.mk 10 1, Frac.mk 35 2, Frac.mk 75 2, Frac.mk 50 2, Frac.mk 100 2,
       Frac.mk 75 1, Frac.mk 90 1, Frac.mk 100 1]
    ∧ nondecr (progressList (processVideoJob jobC2 envC2).1) = false
    ∧ Frac.le (Frac.mk 75 2) (Frac.mk 50 2) = false
    ∧ (processVideoJob jobC2 envC2).2 = Outcome.completed "w1" 0 :=
  ⟨by decide, by decide, by decide, by decide⟩

/-- C3 (counterexample): a completed non-TikTok job whose caller-supplied
display URL is the empty string does not persist that display URL: the falsy
value is dropped from the update, so the stored display image keeps its
previous value instead of the caller-supplied one. -/
theorem c3_display_url_not_unchanged :
    (processVideoJob jobC3 envC3).2 = Outcome.completed "w3" 0
    ∧ jobC3.source ≠ "TikTok"
    ∧ jobC3.displayUrl = some (JsonVal.jstr "")
    ∧ flookup "display_url"
        (applyUpdateData [("display_url", JsonVal.jstr "old.jpg")]
          ((dbUpdates (processVideoJob jobC3 envC3).1).headD []))
      = some (JsonVal.jstr "old.jpg")
    ∧ some (JsonVal.jstr "old.jpg") ≠ jobC3.displayUrl := by
  refine ⟨by decide, by decide, rfl, by rfl, ?_⟩
  intro hc
  rw [show jobC3.displayUrl = some (JsonVal.jstr "") from rfl] at hc
  injection hc with hc2
  injection hc2 with hc3
  exact absurd hc3 (by decide)

/-- C3 (amended): for a completed job the display value selected for
persistence equals the thumbnail frame exactly when the source is TikTok and
a thumbnail was captured, and otherwise the caller-supplied display URL; the
selected value is written to the stored record only when truthy — a falsy
(empty) display URL is omitted from the update and the stored display image
is left untouched. -/
theorem c3_display_resolution_amended (j : JobData) (thumb : Option String) (w : JsonVal)
    (row : List (String × JsonVal)) :
    flookup "display_url" (successUpdate j thumb w)
      = (if truthy (displaySel j thumb) then some (displaySel j thumb) else none)
    ∧ (truthy (displaySel j thumb) = false →
        flookup "display_url" (applyUpdateData row (successUpdate j thumb w))
          = flookup "display_url" row)
    ∧ (j.source = "TikTok" → truthyOpt thumb = true →
        displaySel j thumb = thumb.map JsonVal.jstr)
    ∧ ((j.source == "TikTok" && truthyOpt thumb) = false →
        displaySel j thumb = j.displayUrl) := by
  refine ⟨updLookup_display _, ?_, ?_, ?_⟩
  · intro hf
    exact applyUpdate_lookup_absent _ _ _ (updNoDisplay _ hf)
  · intro h1 h2
    simp [displaySel, h1, h2]
  · intro hc
    simp [displaySel, hc]

theorem c3_display_resolution_amended_witness :
    flookup "display_url"
        (applyUpdateData [("display_url", JsonVal.jstr "old.jpg")]
          (successUpdate jobC3 (some "data:image/png;base64,A")
            (JsonVal.jobj [("exercises", JsonVal.jarr [])])))
      = some (JsonVal.jstr "old.jpg") := by
  have h := (c3_display_resolution_amended jobC3 (some "data:image/png;base64,A")
      (JsonVal.jobj [("exercises", JsonVal.jarr [])])
      [("display_url", JsonVal.jstr "old.jpg")]).2.1 (by decide)
  rw [h]
  rfl

/-- C4: when every per-frame vision call fails or returns only whitespace,
extractTextFromFrames returns the empty string without raising, and an
orchestrator run that had acquired a non-empty frame pool (with a healthy
store) aborts by throwing the NoTextExtracted error without ever issuing the
synthesis call. -/
theorem c4_all_frames_fail_aborts :
    (∀ (frames : List String) (resp : Nat → VisionOutcome),
      (∀ i, i < frames.length → ∀ c, resp i = VisionOutcome.ok c → trimStr c = "") →
      (extractTextRun frames resp).2 = "")
    ∧ (∀ (j : JobData) (env : Env) (tr : List Event) (fr : List String) (th : Option String),
        runLoops j env = (tr, Except.ok (fr, th)) → fr ≠ [] →
        (∀ i, i < fr.length → ∀ c, env.vision i = VisionOutcome.ok c → trimStr c = "") →
        (∀ k, env.db k = none) →
        (processVideoJob j env).2 = Outcome.thrown PErr.noTextExtracted
        ∧ synthCalls (processVideoJob j env).1 = 0
        ∧ PErr.noTextExtracted.message = "No text extracted from video frames") := by
  have hvt : ∀ (frames : List String) (resp : Nat → VisionOutcome),
      (∀ i, i < frames.length → ∀ c, resp i = VisionOutcome.ok c → trimStr c = "") →
      ∀ i, i < frames.length → visionText (resp i) = none := by
    intro frames resp h i hi
    cases hr : resp i with
    | ok c =>
      have hc := h i hi c hr
      simp [visionText, hc]
    | httpErr s => rfl
    | thrown m => rfl
  constructor
  · intro frames resp h
    exact extractTextRun_empty frames resp (hvt frames resp h)
  · intro j env tr fr th h hfr hv hdb
    have ht : (extractTextRun fr env.vision).2 = "" :=
      extractTextRun_empty fr env.vision (hvt fr _ hv)
    have htb := tryBlock_noText j env tr fr th h hfr ht
    have hrun := run_catch_perm j env _ 0 PErr.noTextExtracted htb (by decide) (hdb 0)
    rw [hrun]
    have htr : tr.all Event.isProg = true := by
      have h0 := runLoops_all_prog j env
      rw [h] at h0
      exact h0
    have hsc : synthCalls tr = 0 := by
      unfold synthCalls
      rw [filterMap_nil_of_all_prog _ (fun _ => rfl) tr htr]
      rfl
    have hscv : synthCalls (extractTextRun fr env.vision).1 = 0 := by
      unfold synthCalls
      rw [extractTextRun_events, filterMap_nil_of_vision_events _ (fun _ => rfl)]
      rfl
    refine ⟨rfl, ?_, rfl⟩
    show synthCalls ((Event.progress (Frac.mk 10 1) ::
        (tr ++ (extractTextRun fr env.vision).1 ++ [Event.progress (Frac.mk 75 1)]))
        ++ [Event.dbUpdate (permFailUpd PErr.noTextExtracted.message), Event.notify false]) = 0
    rw [synthCalls_append, synthCalls_cons_prog, synthCalls_append, synthCalls_append,
      hsc, hscv]
    rfl

theorem c4_all_frames_fail_aborts_witness :
    (processVideoJob jobC4 envC4).2 = Outcome.thrown PErr.noTextExtracted
    ∧ synthCalls (processVideoJob jobC4 envC4).1 = 0 := by
  have h := (c4_all_frames_fail_aborts).2 jobC4 envC4 [Event.progress (Frac.mk 50 1)]
      ["data:image/png;base64,A"] (some "data:image/png;base64,A") rfl (by decide)
      (fun i _ c hc => VisionOutcome.noConfusion hc) (fun k => rfl)
  exact ⟨h.1, h.2.1⟩

/-- C5: extractFrames orders the qualifying png entries of the archive by
name (a genuine sort: the name-ordered list is a sorted permutation of the
qualifying entries) and returns exactly the entries at indices 0, 3, 6, ...
of that order, each base64-encoded as a data:image/png;base64, URI; an
archive with zero qualifying images fails with NoFramesFound, whose message
is exactly the source string. -/
theorem c5_frame_sampling (entries : List ZipEntry) :
    List.Sorted entryLe (sortByName (pngEntries entries))
    ∧ (sortByName (pngEntries entries)).Perm (pngEntries entries)
    ∧ PErr.noFramesFound.message = "No frames found in ZIP"
    ∧ (sortByName (pngEntries entries) = [] →
        extractFrames (ExtractOutcome.ok entries) = Except.error PErr.noFramesFound)
    ∧ (sortByName (pngEntries entries) ≠ [] →
        extractFrames (ExtractOutcome.ok entries)
          = Except.ok
              ((every3 (sortByName (pngEntries entries))).map (fun e => dataURI e.b64),
               (sortByName (pngEntries entries)).head?.map (fun e => dataURI e.b64)))
    ∧ (∀ k, ((every3 (sortByName (pngEntries entries))).map (fun e => dataURI e.b64)).get? k
          = ((sortByName (pngEntries entries)).get? (3 * k)).map (fun e => dataURI e.b64))
    ∧ (∀ b, dataURI b = "data:image/png;base64," ++ b) := by
  refine ⟨List.sorted_insertionSort entryLe _, List.perm_insertionSort entryLe _, rfl,
    ?_, ?_, ?_, fun b => rfl⟩
  · intro h
    simp only [extractFrames, h]
    rfl
  · intro h
    have hne : ¬((sortByName (pngEntries entries)).isEmpty = true) := by
      rw [List.isEmpty_iff]
      exact h
    simp only [extractFrames, if_neg hne]
  · intro k
    rw [List.get?_map, every3_get?]

theorem c5_frame_sampling_witness :
    extractFrames (ExtractOutcome.ok
        [⟨"b.png", "QQ"⟩, ⟨"a.png", "PP"⟩, ⟨"readme.txt", "XX"⟩, ⟨"c.png", "RR"⟩,
         ⟨"d.png", "SS"⟩])
      = Except.ok (["data:image/png;base64,PP", "data:image/png;base64,SS"],
          some "data:image/png;base64,PP") := by
  have h := (c5_frame_sampling
      [⟨"b.png", "QQ"⟩, ⟨"a.png", "PP"⟩, ⟨"readme.txt", "XX"⟩, ⟨"c.png", "RR"⟩,
       ⟨"d.png", "SS"⟩]).2.2.2.2.1 (by decide)
  rw [h]
  rfl

/-- C6: downloadVideo issues exactly one HTTP GET of the video URL under a
30000 ms cap; a fired timeout yields the DownloadTimeout error with message
Video download timeout, a non-ok response yields DownloadFailed carrying the
HTTP status with message Failed to download video: status, and only a
successful response returns the local temp-file path. -/
theorem c6_download_contract (url tmp : String) (o : DlOutcome) :
    (downloadVideo url o tmp).1 = [url]
    ∧ downloadTimeoutMs = 30000
    ∧ (o = DlOutcome.timeout →
        (downloadVideo url o tmp).2 = Except.error PErr.downloadTimeout
        ∧ PErr.downloadTimeout.message = "Video download timeout")
    ∧ (∀ s, o = DlOutcome.resp false s →
        (downloadVideo url o tmp).2 = Except.error (PErr.downloadFailed s)
        ∧ (PErr.downloadFailed s).message = "Failed to download video: " ++ natToStr s)
    ∧ (∀ s, o = DlOutcome.resp true s → (downloadVideo url o tmp).2 = Except.ok tmp) := by
  refine ⟨rfl, rfl, ?_, ?_, ?_⟩
  · intro h
    subst h
    exact ⟨rfl, rfl⟩
  · intro s h
    subst h
    exact ⟨rfl, rfl⟩
  · intro s h
    subst h
    rfl

theorem c6_download_contract_witness :
    (downloadVideo "https://v.example/a.mp4" DlOutcome.timeout "/tmp/video_1.mp4").2
        = Except.error PErr.downloadTimeout
    ∧ (downloadVideo "https://v.example/a.mp4" DlOutcome.timeout "/tmp/video_1.mp4").1
        = ["https://v.example/a.mp4"] := by
  have h := c6_download_contract "https://v.example/a.mp4" "/tmp/video_1.mp4" DlOutcome.timeout
  exact ⟨(h.2.2.1 rfl).1, h.1⟩

/-- C7 (counterexample): a synthesis call that fails with HTTP 429 is not
treated as permanent by the orchestrator: the run persists status processing
(not failed), sends no failure notification, and returns the soft non-error
outcome instead of rethrowing. -/
theorem c7_synthesis_429_retryable :
    (processVideoJob jobC7 envC7).2 = Outcome.softRateLimit
    ∧ dbUpdates (processVideoJob jobC7 envC7).1 = [rateLimitUpd]
    ∧ flookup "status" rateLimitUpd = some (some (JsonVal.jstr "processing"))
    ∧ notifyFails (processVideoJob jobC7 envC7).1 = 0 :=
  ⟨by decide, by rfl, by rfl, by rfl⟩

/-- C7 (amended): parseWorkoutWithAI maps a non-success response to the
OpenAI-API-error failure carrying status and message, a response content with
no extractable brace span to SynthesisParseFailed, a parsed object without an
exercises array to InvalidWorkoutShape, and returns the parsed record
otherwise; SynthesisParseFailed and InvalidWorkoutShape never carry the 429
marker and are therefore always classified permanent by the orchestrator,
while a synthesis call failure whose HTTP status is 429 carries the marker
and is classified retryable (soft outcome) rather than permanent. -/
theorem c7_synthesis_failures_amended (caption text errMsg content : String)
    (status : Nat) (jparse : String → Except String JsonVal) :
    (parseWorkoutWithAI caption text (SynthOutcome.resp false status errMsg content) jparse
        = Except.error (PErr.openAIError status errMsg)
      ∧ (PErr.openAIError status errMsg).message
          = "OpenAI API error: " ++ natToStr status ++ " - " ++ errMsg)
    ∧ (jsonSpan content = none →
        parseWorkoutWithAI caption text (SynthOutcome.resp true status errMsg content) jparse
          = Except.error PErr.parseFailed)
    ∧ (∀ span w, jsonSpan content = some span → jparse span = Except.ok w →
        hasExercisesArr w = false →
        parseWorkoutWithAI caption text (SynthOutcome.resp true status errMsg content) jparse
          = Except.error PErr.invalidWorkout)
    ∧ (∀ span w, jsonSpan content = some span → jparse span = Except.ok w →
        hasExercisesArr w = true →
        parseWorkoutWithAI caption text (SynthOutcome.resp true status errMsg content) jparse
          = Except.ok w)
    ∧ PErr.parseFailed.message = "Failed to parse workout data from AI response"
    ∧ PErr.invalidWorkout.message = "Invalid workout structure from AI"
    ∧ includes429 PErr.parseFailed.message = false
    ∧ includes429 PErr.invalidWorkout.message = false
    ∧ includes429 (PErr.openAIError 429 errMsg).message = true
    ∧ (∀ j env tr n, tryBlock j env = (tr, n, Except.error PErr.parseFailed) →
        env.db n = none → (processVideoJob j env).2 = Outcome.thrown PErr.parseFailed)
    ∧ (∀ j env tr n, tryBlock j env = (tr, n, Except.error PErr.invalidWorkout) →
        env.db n = none → (processVideoJob j env).2 = Outcome.thrown PErr.invalidWorkout)
    ∧ (∀ j env tr n, tryBlock j env = (tr, n, Except.error (PErr.openAIError 429 errMsg)) →
        env.db n = none → (processVideoJob j env).2 = Outcome.softRateLimit) := by
  have h429open : includes429 (PErr.openAIError 429 errMsg).message = true := by
    show includes429 (("OpenAI API error: " ++ natToStr 429 ++ " - ") ++ errMsg) = true
    exact includes429_append_left _ errMsg (by decide)
  refine ⟨⟨rfl, rfl⟩, ?_, ?_, ?_, rfl, rfl, by decide, by decide, h429open, ?_, ?_, ?_⟩
  · intro h
    simp only [parseWorkoutWithAI, h]
    rw [if_pos trivial]
  · intro span w h hj he
    simp only [parseWorkoutWithAI, h, hj]
    rw [if_pos trivial, if_neg (fun hb => Bool.false_ne_true (he.symm.trans hb))]
  · intro span w h hj he
    simp only [parseWorkoutWithAI, h, hj]
    rw [if_pos trivial, if_pos he]
  · intro j env tr n h hdb
    rw [run_catch_perm j env tr n _ h (by decide) hdb]
  · intro j env tr n h hdb
    rw [run_catch_perm j env tr n _ h (by decide) hdb]
  · intro j env tr n h hdb
    rw [run_catch_429 j env tr n _ h h429open hdb]

theorem c7_synthesis_failures_amended_witness :
    parseWorkoutWithAI "cap" "text" (SynthOutcome.resp true 200 "" "no braces here") jparse0
      = Except.error PErr.parseFailed :=
  (c7_synthesis_failures_amended "cap" "text" "" "no braces here" 200 jparse0).2.1 rfl

/-- C8: every per-frame vision request issued by extractTextFromFrames asks
for the image at reduced fidelity: its image_url detail parameter is the
string low. -/
theorem c8_vision_low_detail (frames : List String) (resp : Nat → VisionOutcome)
    (r : VisionRequest) (h : r ∈ visionReqs (extractTextRun frames resp).1) :
    r.detail = "low" := by
  rw [extractTextRun_events, visionReqs_of_vision_events] at h
  obtain ⟨f, _, hf⟩ := List.mem_map.mp h
  rw [← hf]
  rfl

theorem c8_vision_low_detail_witness :
    (visionRequest "data:image/png;base64,AAAA").detail = "low" := by
  apply c8_vision_low_detail ["data:image/png;base64,AAAA"] (fun _ => VisionOutcome.ok "")
  rw [extractTextRun_events, visionReqs_of_vision_events]
  exact List.mem_singleton_self _

/-- C9: whenever extractFrames succeeds, the returned thumbnail candidate
equals the head of the returned sampled-frame list (both are the name-ordered
first image, base64-encoded the same way), so the frame list is never empty
on success. -/
theorem c9_thumbnail_is_first_frame (o : ExtractOutcome) (fr : List String)
    (ff : Option String) (h : extractFrames o = Except.ok (fr, ff)) :
    ff = fr.head? ∧ fr ≠ [] := by
  cases o with
  | netErr m => exact absurd h (by simp [extractFrames])
  | httpErr s b => exact absurd h (by simp [extractFrames])
  | ok entries =>
    simp only [extractFrames] at h
    cases hs : sortByName (pngEntries entries) with
    | nil => rw [hs] at h; simp at h
    | cons e rest =>
      rw [hs] at h
      simp only [List.isEmpty_cons, if_neg Bool.false_ne_true, Except.ok.injEq,
        Prod.mk.injEq] at h
      obtain ⟨hfr, hff⟩ := h
      obtain ⟨t, htl⟩ := every3_cons e rest
      rw [htl] at hfr
      rw [← hfr, ← hff]
      constructor
      · rfl
      · exact List.cons_ne_nil _ _

theorem c9_thumbnail_is_first_frame_witness :
    some "data:image/png;base64,PP" = (["data:image/png;base64,PP"]).head?
    ∧ (["data:image/png;base64,PP"] : List String) ≠ [] :=
  c9_thumbnail_is_first_frame (ExtractOutcome.ok [⟨"a.png", "PP"⟩])
    ["data:image/png;base64,PP"] (some "data:image/png;base64,PP") rfl

/-- C10: every updateWorkout call always includes the status key in the
update object (even when the supplied status value is undefined), while every
other supplied field is included exactly when its value is truthy — so an
empty-string name, duration, difficulty or notes is silently dropped, while
an empty exercises array (truthy in JS) is written. -/
theorem c10_update_field_truthiness (u : WUpdates) :
    flookup "status" (updateWorkoutData u) = some u.status
    ∧ flookup "status" (updateWorkoutData ⟨none, none, none, none, none, none, none, none⟩)
        = some none
    ∧ flookup "exercises" (updateWorkoutData u)
        = (if truthy u.exercises then some u.exercises else none)
    ∧ flookup "name" (updateWorkoutData u) = (if truthy u.name then some u.name else none)
    ∧ flookup "duration" (updateWorkoutData u)
        = (if truthy u.duration then some u.duration else none)
    ∧ flookup "difficulty" (updateWorkoutData u)
        = (if truthy u.difficulty then some u.difficulty else none)
    ∧ flookup "notes" (updateWorkoutData u) = (if truthy u.notes then some u.notes else none)
    ∧ flookup "display_url" (updateWorkoutData u)
        = (if truthy u.displayUrl then some u.displayUrl else none)
    ∧ flookup "processing_error" (updateWorkoutData u)
        = (if truthy u.processingError then some u.processingError else none)
    ∧ truthy (some (JsonVal.jstr "")) = false
    ∧ truthy (some (JsonVal.jarr [])) = true :=
  ⟨updLookup_status u, rfl, updLookup_exercises u, updLookup_name u, updLookup_duration u,
   updLookup_difficulty u, updLookup_notes u, updLookup_display u, updLookup_procError u,
   rfl, rfl⟩

end VideoProc
